import Mathlib

/-!
Shallow embedding of the NYC Airbnb exploratory-dashboard scripts
(`src/dashboard.py` and `src/dash.py`).

A table is a list of rows; a cell is a numeric value, a piece of text, or
missing (pandas NaN).  `pd.to_numeric(..., errors="coerce")` is modelled by
`Cell.coerce`: the `num` constructor stands for any cell pandas can parse as
a number, so coercion keeps it and turns everything else into a missing
value.  Comparing a cell with a number is false on a non-numeric cell,
mirroring NaN comparison semantics of pandas boolean indexing.
-/

namespace Airbnb

/-- A spreadsheet cell: a numeric value, text, or missing (pandas NaN). -/
inductive Cell where
  | num (q : ℚ)
  | text (s : String)
  | na
deriving DecidableEq

/-- One row of `data_airbnb.csv`, restricted to the columns the two scripts
touch. -/
structure Row where
  name : Cell
  host_name : Cell
  neighbourhood_group : Cell
  neighbourhood : Cell
  latitude : Cell
  longitude : Cell
  room_type : Cell
  price : Cell
  beds : Cell
  number_of_reviews : Cell
  reviews_per_month : Cell
  availability_365 : Cell
  rating : Cell
deriving DecidableEq

/-- `pd.isna` on one cell. -/
def Cell.isna : Cell → Bool
  | .na => true
  | _ => false

/-- `pd.to_numeric(..., errors="coerce")` on one cell: numeric cells are kept,
any other cell becomes NaN. -/
def Cell.coerce : Cell → Cell
  | .num q => .num q
  | _ => .na

/-- The numeric value of a cell, if it has one. -/
def Cell.toNum : Cell → Option ℚ
  | .num q => some q
  | _ => none

/-- `series >= q` on one cell: false on a non-numeric cell (NaN comparisons
are false in pandas). -/
def Cell.ge (c : Cell) (q : ℚ) : Bool :=
  match c with
  | .num x => q ≤ x
  | _ => false

/-- `series <= q` on one cell: false on a non-numeric cell. -/
def Cell.le (c : Cell) (q : ℚ) : Bool :=
  match c with
  | .num x => x ≤ q
  | _ => false

/-- `series.isin(sel)` on one cell. -/
def Cell.isin (c : Cell) (sel : List Cell) : Bool :=
  decide (c ∈ sel)

/-- `dashboard.py` lines 10-11: coerce the `price` and `beds` columns of a
row to numeric. -/
def coerceRow (r : Row) : Row :=
  { r with price := r.price.coerce, beds := r.beds.coerce }

/-- `dashboard.py` line 12: the predicate of
`dropna(subset=["latitude", "longitude", "price", "beds"])`. -/
def keepRow (r : Row) : Bool :=
  !r.latitude.isna && !r.longitude.isna && !r.price.isna && !r.beds.isna

/-- `dashboard.py` lines 9-12: load and clean.  Reading the CSV itself is out
of scope; the raw table is the input. -/
def dashboardLoad (t : List Row) : List Row :=
  (t.map coerceRow).filter keepRow

/-- `dash.py` line 11: the load step of `dash.py` applies no coercion and
drops no rows; `df` before the filter block is the raw CSV table.  (Lines
17-26 only derive the widget option lists and do not modify `df`.) -/
def dashLoad (t : List Row) : List Row :=
  t

/-- `dashboard.py` lines 22-27: keep the rows whose price and beds lie in the
selected ranges. -/
def filtered_df (p0 p1 b0 b1 : ℚ) (t : List Row) : List Row :=
  t.filter fun r => r.price.ge p0 && r.price.le p1 && r.beds.ge b0 && r.beds.le b1

/-- `dash.py` lines 56-61: filter by room type membership, then price range,
then neighbourhood-group membership. -/
def dashFilter (selRoom : List Cell) (p0 p1 : ℚ) (selGroup : List Cell)
    (t : List Row) : List Row :=
  ((t.filter fun r => r.room_type.isin selRoom).filter
      fun r => r.price.ge p0 && r.price.le p1).filter
    fun r => r.neighbourhood_group.isin selGroup

/-- Mean of a list of rationals, `none` on the empty list (pandas returns NaN
for the mean of an empty or all-NaN series). -/
def meanOpt (xs : List ℚ) : Option ℚ :=
  if xs = [] then none else some (xs.sum / xs.length)

/-- `dash.py` line 76: `len(df)`. -/
def totalListings (t : List Row) : Nat :=
  t.length

/-- `dash.py` line 78: `df["price"].mean()` — the mean of the non-missing
numeric prices, NaN (`none`) when there are none. -/
def avgPrice (t : List Row) : Option ℚ :=
  meanOpt (t.filterMap fun r => r.price.toNum)

/-- A sample row with every used column present and numeric. -/
def rowA : Row :=
  { name := .text "a", host_name := .text "h",
    neighbourhood_group := .text "Brooklyn", neighbourhood := .text "Wb",
    latitude := .num 1, longitude := .num 2, room_type := .text "Entire",
    price := .num 100, beds := .num 2, number_of_reviews := .num 3,
    reviews_per_month := .num 1, availability_365 := .num 10,
    rating := .num 4 }

/-- The sort key of `dashboard.py` line 78: the row's price.  A missing
price (impossible after cleaning) sorts below every number, as pandas puts
NaN last in a descending sort. -/
def priceKey (r : Row) : Option ℚ :=
  r.price.toNum

/-- Order on optional numbers with `none` as bottom element. -/
def optLe : Option ℚ → Option ℚ → Bool
  | none, _ => true
  | some _, none => false
  | some x, some y => decide (x ≤ y)

/-- The comparator of `sort_values(by="price", ascending=False)`:
`a` precedes `b` when `a`'s price is at least `b`'s. -/
def rowGeB (a b : Row) : Bool :=
  optLe (priceKey b) (priceKey a)

/-- `dashboard.py` line 78: sort by descending price and keep the first 10
rows. -/
def top10 (t : List Row) : List Row :=
  (t.mergeSort rowGeB).take 10

/-- The groupby keys of a column: its distinct non-missing values, in first
occurrence order.  (pandas sorts the keys; no claim depends on key order.) -/
def groupKeys (col : Row → Cell) (t : List Row) : List Cell :=
  ((t.map col).filter fun c => !c.isna).dedup

/-- `dashboard.py` lines 61-64:
`groupby("neighbourhood_group")["name"].count()` — for each non-missing
neighbourhood group of the table, the number of its rows whose name is
non-missing (pandas `count` counts the non-null entries of the selected
column). -/
def listings_count (t : List Row) : List (Cell × Nat) :=
  (groupKeys (fun r => r.neighbourhood_group) t).map fun g =>
    (g, ((t.filter fun r => decide (r.neighbourhood_group = g)).filter
          fun r => !r.name.isna).length)

/-- The numeric ratings of the rows of room type `g`, after the coercion of
`dash.py` line 131; the group mean skips the NaN entries. -/
def groupRatings (t : List Row) (g : Cell) : List ℚ :=
  (t.filter fun r => decide (r.room_type = g)).filterMap fun r =>
    r.rating.coerce.toNum

/-- Descending comparator of `sort_values(ascending=False)` on the group
means, NaN last. -/
def ratingOptGe (a b : Cell × Option ℚ) : Bool :=
  optLe b.2 a.2

/-- Descending comparator of the second `sort_values(ascending=False)`, after
the NaN means are gone. -/
def ratingGe (a b : Cell × ℚ) : Bool :=
  decide (b.2 ≤ a.2)

/-- `dash.py` lines 133-144: groupby room type, mean of the ratings (NaN for
a group with no numeric rating), sort descending with NaN last, drop the NaN
means, sort descending again. -/
def avg_rating (t : List Row) : List (Cell × ℚ) :=
  let means := (groupKeys (fun r => r.room_type) t).map fun g =>
    (g, meanOpt (groupRatings t g))
  let sorted := means.mergeSort ratingOptGe
  let nonnull := sorted.filterMap fun p => p.2.map fun v => (p.1, v)
  nonnull.mergeSort ratingGe

/-- `Series.corr` uses pairwise-complete observations: the value pairs of
the rows where both `number_of_reviews` and `reviews_per_month` are
numeric. -/
def corrPairs (t : List Row) : List (ℚ × ℚ) :=
  t.filterMap fun r =>
    match r.number_of_reviews.toNum, r.reviews_per_month.toNum with
    | some x, some y => some (x, y)
    | _, _ => none

/-- The sign-carrying square of the Pearson coefficient of a list of pairs:
`cov * |cov| / (varX * varY)`, `none` when the list is empty or a variance
vanishes.  Pearson's `r` equals `cov / sqrt (varX * varY)`, so `r` is
recovered from this value as its signed square root, and two datasets share
this value iff they share `r`; this keeps the development inside ℚ. -/
def corrSignedSq (ps : List (ℚ × ℚ)) : Option ℚ :=
  if ps = [] then none
  else
    let n : ℚ := ps.length
    let mx : ℚ := (ps.map Prod.fst).sum / n
    let my : ℚ := (ps.map Prod.snd).sum / n
    let cov : ℚ := (ps.map fun p => (p.1 - mx) * (p.2 - my)).sum
    let vx : ℚ := (ps.map fun p => (p.1 - mx) ^ 2).sum
    let vy : ℚ := (ps.map fun p => (p.2 - my) ^ 2).sum
    if vx * vy = 0 then none else some (cov * |cov| / (vx * vy))

/-- `dashboard.py` line 132: the displayed correlation of
`number_of_reviews` and `reviews_per_month`, represented by its
sign-carrying square. -/
def corr_val (t : List Row) : Option ℚ :=
  corrSignedSq (corrPairs t)

/-- The spec side of C5: the two columns taken over the whole filtered
subset, one pair per row.  The fallback 0 is never used under the
definedness hypothesis of C5. -/
def pearsonSpecPairs (t : List Row) : List (ℚ × ℚ) :=
  t.map fun r =>
    (r.number_of_reviews.toNum.getD 0, r.reviews_per_month.toNum.getD 0)

/-- A second sample row. -/
def rowB : Row :=
  { rowA with
      name := .text "b", price := .num 200, beds := .num 3,
      number_of_reviews := .num 10, reviews_per_month := .num 2,
      room_type := .text "Private", rating := .num 3 }

/-- A sample row whose name cell is missing. -/
def rowNoName : Row :=
  { rowA with name := Cell.na }

lemma cell_range_iff (c : Cell) (a b : ℚ) :
    (c.ge a = true ∧ c.le b = true) ↔ ∃ q, c = Cell.num q ∧ a ≤ q ∧ q ≤ b := by
  cases c with
  | num q => simp [Cell.ge, Cell.le]
  | text s => simp [Cell.ge, Cell.le]
  | na => simp [Cell.ge, Cell.le]

lemma mem_filtered_df (p0 p1 b0 b1 : ℚ) (t : List Row) (r : Row) :
    r ∈ filtered_df p0 p1 b0 b1 t ↔
      r ∈ t ∧ (∃ q, r.price = Cell.num q ∧ p0 ≤ q ∧ q ≤ p1) ∧
        (∃ q, r.beds = Cell.num q ∧ b0 ≤ q ∧ q ≤ b1) := by
  simp only [filtered_df, List.mem_filter, Bool.and_eq_true]
  constructor
  · rintro ⟨hm, ⟨⟨h1, h2⟩, h3⟩, h4⟩
    exact ⟨hm, (cell_range_iff _ _ _).mp ⟨h1, h2⟩, (cell_range_iff _ _ _).mp ⟨h3, h4⟩⟩
  · rintro ⟨hm, hp, hb⟩
    obtain ⟨h1, h2⟩ := (cell_range_iff _ _ _).mpr hp
    obtain ⟨h3, h4⟩ := (cell_range_iff _ _ _).mpr hb
    exact ⟨hm, ⟨⟨h1, h2⟩, h3⟩, h4⟩

lemma mem_dashFilter (selRoom : List Cell) (p0 p1 : ℚ) (selGroup : List Cell)
    (t : List Row) (r : Row) :
    r ∈ dashFilter selRoom p0 p1 selGroup t ↔
      r ∈ t ∧ r.room_type ∈ selRoom ∧
        (∃ q, r.price = Cell.num q ∧ p0 ≤ q ∧ q ≤ p1) ∧
        r.neighbourhood_group ∈ selGroup := by
  simp only [dashFilter, List.mem_filter, Cell.isin, Bool.and_eq_true,
    decide_eq_true_iff]
  constructor
  · rintro ⟨⟨⟨hm, hrt⟩, h1, h2⟩, hg⟩
    exact ⟨hm, hrt, (cell_range_iff _ _ _).mp ⟨h1, h2⟩, hg⟩
  · rintro ⟨hm, hrt, hp, hg⟩
    obtain ⟨h1, h2⟩ := (cell_range_iff _ _ _).mpr hp
    exact ⟨⟨⟨hm, hrt⟩, h1, h2⟩, hg⟩

/-- C1: in `dashboard.py` a row is in the filtered table iff it is a row of
the loaded table whose price lies in the selected price range and whose beds
value lies in the selected beds range; in `dash.py` a row is in the filtered
table iff it is a row of the loaded table whose room type is among the
selected room types, whose price lies in the selected interval, and whose
neighbourhood group is among the selected groups.  No outside row appears
and no qualifying row is dropped. -/
theorem C1_filter_engine (p0 p1 b0 b1 : ℚ) (selRoom selGroup : List Cell)
    (t : List Row) (r : Row) :
    (r ∈ filtered_df p0 p1 b0 b1 t ↔
      r ∈ t ∧ (∃ q, r.price = Cell.num q ∧ p0 ≤ q ∧ q ≤ p1) ∧
        (∃ q, r.beds = Cell.num q ∧ b0 ≤ q ∧ q ≤ b1)) ∧
    (r ∈ dashFilter selRoom p0 p1 selGroup t ↔
      r ∈ t ∧ r.room_type ∈ selRoom ∧
        (∃ q, r.price = Cell.num q ∧ p0 ≤ q ∧ q ≤ p1) ∧
        r.neighbourhood_group ∈ selGroup) :=
  ⟨mem_filtered_df p0 p1 b0 b1 t r, mem_dashFilter selRoom p0 p1 selGroup t r⟩

/-- C10: in `dash.py`, deselecting every room type, or every neighbourhood
group, empties the filtered table: Total Listings is 0 and the Average Price
metric, the mean of an empty price column, has no numeric value. -/
theorem C10_empty_selection (p0 p1 : ℚ) (selRoom selGroup : List Cell)
    (t : List Row) :
    (dashFilter [] p0 p1 selGroup t = [] ∧
      totalListings (dashFilter [] p0 p1 selGroup t) = 0 ∧
      avgPrice (dashFilter [] p0 p1 selGroup t) = none) ∧
    (dashFilter selRoom p0 p1 [] t = [] ∧
      totalListings (dashFilter selRoom p0 p1 [] t) = 0 ∧
      avgPrice (dashFilter selRoom p0 p1 [] t) = none) := by
  have h1 : dashFilter [] p0 p1 selGroup t = [] := by
    have : (t.filter fun r => r.room_type.isin []) = [] := by
      simp [Cell.isin]
    simp [dashFilter, this]
  have h2 : dashFilter selRoom p0 p1 [] t = [] := by
    simp [dashFilter, Cell.isin]
  refine ⟨⟨h1, ?_, ?_⟩, ⟨h2, ?_, ?_⟩⟩ <;>
    simp [h1, h2, totalListings, avgPrice, meanOpt]

lemma coerce_not_na (c : Cell) (h : c.coerce.isna = false) :
    ∃ q, c.coerce = Cell.num q := by
  cases c with
  | num q => exact ⟨q, rfl⟩
  | text s => simp [Cell.coerce, Cell.isna] at h
  | na => simp [Cell.coerce, Cell.isna] at h

lemma ne_na_of_isna_false (c : Cell) (h : c.isna = false) : c ≠ Cell.na := by
  cases c with
  | num q => exact fun hc => Cell.noConfusion hc
  | text s => exact fun hc => Cell.noConfusion hc
  | na => simp [Cell.isna] at h

/-- C2 (amended): in `dashboard.py` the loader coerces the price and beds
columns to numeric and drops every row with a missing latitude, longitude,
price or beds value, so every loaded row has a numeric price and beds and a
non-missing latitude and longitude.  The load step of `dash.py`, however,
applies no coercion and drops no row: its loaded table is the raw CSV table
itself. -/
theorem C2_loader (t : List Row) :
    (∀ r ∈ dashboardLoad t,
      (∃ q, r.price = Cell.num q) ∧ (∃ q, r.beds = Cell.num q) ∧
        r.latitude ≠ Cell.na ∧ r.longitude ≠ Cell.na) ∧
    dashLoad t = t := by
  refine ⟨?_, rfl⟩
  intro r hr
  rw [dashboardLoad, List.mem_filter] at hr
  obtain ⟨hm, hk⟩ := hr
  rw [List.mem_map] at hm
  obtain ⟨r0, -, rfl⟩ := hm
  rw [keepRow] at hk
  simp only [Bool.and_eq_true, Bool.not_eq_true'] at hk
  obtain ⟨⟨⟨hla, hlo⟩, hp⟩, hb⟩ := hk
  exact ⟨coerce_not_na _ hp, coerce_not_na _ hb,
    ne_na_of_isna_false _ hla, ne_na_of_isna_false _ hlo⟩

/-- C2 counterexample: the load step of `dash.py` keeps a row whose price is
missing, so the claim that both scripts drop incomplete rows at load time is
false. -/
theorem C2_counterexample :
    dashLoad [{ rowA with price := Cell.na }] = [{ rowA with price := Cell.na }] ∧
    ({ rowA with price := Cell.na } : Row).price = Cell.na :=
  ⟨rfl, rfl⟩

/-- Witness for C2 at a one-row table. -/
theorem C2_witness :
    ((∃ q, (coerceRow rowA).price = Cell.num q) ∧
      (∃ q, (coerceRow rowA).beds = Cell.num q) ∧
      (coerceRow rowA).latitude ≠ Cell.na ∧
      (coerceRow rowA).longitude ≠ Cell.na) ∧
    dashLoad [rowA] = [rowA] :=
  ⟨(C2_loader [rowA]).1 (coerceRow rowA) (by decide), (C2_loader [rowA]).2⟩

/-- C7: cleaning in `dashboard.py` only coerces the price and beds columns
and removes rows: every surviving row agrees with a raw row of the input on
every other column, and its price and beds are that raw row's values
coerced; no row from outside the input appears. -/
theorem C7_frame (t : List Row) (r2 : Row) (h : r2 ∈ dashboardLoad t) :
    ∃ r ∈ t,
      r2.name = r.name ∧ r2.host_name = r.host_name ∧
      r2.neighbourhood_group = r.neighbourhood_group ∧
      r2.neighbourhood = r.neighbourhood ∧ r2.latitude = r.latitude ∧
      r2.longitude = r.longitude ∧ r2.room_type = r.room_type ∧
      r2.number_of_reviews = r.number_of_reviews ∧
      r2.reviews_per_month = r.reviews_per_month ∧
      r2.availability_365 = r.availability_365 ∧ r2.rating = r.rating ∧
      r2.price = r.price.coerce ∧ r2.beds = r.beds.coerce := by
  rw [dashboardLoad, List.mem_filter, List.mem_map] at h
  obtain ⟨⟨r0, hr0, rfl⟩, -⟩ := h
  exact ⟨r0, hr0, rfl, rfl, rfl, rfl, rfl, rfl, rfl, rfl, rfl, rfl, rfl, rfl, rfl⟩

/-- Witness for C7 at a one-row table. -/
theorem C7_witness :
    ∃ r ∈ [rowA],
      rowA.name = r.name ∧ rowA.host_name = r.host_name ∧
      rowA.neighbourhood_group = r.neighbourhood_group ∧
      rowA.neighbourhood = r.neighbourhood ∧ rowA.latitude = r.latitude ∧
      rowA.longitude = r.longitude ∧ rowA.room_type = r.room_type ∧
      rowA.number_of_reviews = r.number_of_reviews ∧
      rowA.reviews_per_month = r.reviews_per_month ∧
      rowA.availability_365 = r.availability_365 ∧ rowA.rating = r.rating ∧
      rowA.price = r.price.coerce ∧ rowA.beds = r.beds.coerce :=
  C7_frame [rowA] rowA (by decide)

/-- C8: filtering in `dashboard.py` is monotone in the selection — if
selection A's price and beds intervals contain selection B's, every row
filtered under B is also filtered under A. -/
theorem C8_monotone (pA0 pA1 bA0 bA1 pB0 pB1 bB0 bB1 : ℚ) (t : List Row)
    (hp0 : pA0 ≤ pB0) (hp1 : pB1 ≤ pA1) (hb0 : bA0 ≤ bB0) (hb1 : bB1 ≤ bA1) :
    ∀ r ∈ filtered_df pB0 pB1 bB0 bB1 t, r ∈ filtered_df pA0 pA1 bA0 bA1 t := by
  intro r hr
  rw [mem_filtered_df] at hr ⊢
  obtain ⟨hm, ⟨q, hq, h1, h2⟩, ⟨b, hb, h3, h4⟩⟩ := hr
  exact ⟨hm, ⟨q, hq, hp0.trans h1, h2.trans hp1⟩,
    ⟨b, hb, hb0.trans h3, h4.trans hb1⟩⟩

/-- Witness for C8: widening the default ranges keeps the sample row. -/
theorem C8_witness : rowA ∈ filtered_df 0 500 1 8 [rowA] :=
  C8_monotone 0 500 1 8 50 300 1 4 [rowA] (by norm_num) (by norm_num)
    (by norm_num) (by norm_num) rowA (by decide)

lemma optLe_total (x y : Option ℚ) : (optLe x y || optLe y x) = true := by
  cases x with
  | none => simp [optLe]
  | some a =>
    cases y with
    | none => simp [optLe]
    | some b => simpa [optLe] using le_total a b

lemma optLe_trans (x y z : Option ℚ) (h1 : optLe x y = true)
    (h2 : optLe y z = true) : optLe x z = true := by
  cases x with
  | none => simp [optLe]
  | some a =>
    cases y with
    | none => simp [optLe] at h1
    | some b =>
      cases z with
      | none => simp [optLe] at h2
      | some c =>
        simp only [optLe, decide_eq_true_iff] at h1 h2 ⊢
        exact h1.trans h2

lemma rowGeB_total (a b : Row) : (rowGeB a b || rowGeB b a) = true :=
  optLe_total (priceKey b) (priceKey a)

lemma rowGeB_trans (a b c : Row) (h1 : rowGeB a b = true)
    (h2 : rowGeB b c = true) : rowGeB a c = true :=
  optLe_trans _ _ _ h2 h1

lemma rowGeB_price (a b : Row) (h : rowGeB a b = true) (qa qb : ℚ)
    (ha : priceKey a = some qa) (hb : priceKey b = some qb) : qb ≤ qa := by
  rw [rowGeB, ha, hb] at h
  simpa [optLe] using h

/-- C3: the Top 10 Most Expensive Listings table holds at most 10 rows, is
ordered by descending price, and each of its rows has a price at least the
price of every filtered row that was left out (a correct top-k selection
over the filtered subset). -/
theorem C3_top10 (p0 p1 b0 b1 : ℚ) (t : List Row) :
    (top10 (filtered_df p0 p1 b0 b1 t)).length ≤ 10 ∧
    (top10 (filtered_df p0 p1 b0 b1 t)).Pairwise
      (fun a b => ∀ qa qb, priceKey a = some qa → priceKey b = some qb → qb ≤ qa) ∧
    ∃ rest,
      (filtered_df p0 p1 b0 b1 t).Perm (top10 (filtered_df p0 p1 b0 b1 t) ++ rest) ∧
      ∀ x ∈ top10 (filtered_df p0 p1 b0 b1 t), ∀ y ∈ rest,
        ∀ qx qy, priceKey x = some qx → priceKey y = some qy → qy ≤ qx := by
  simp only [top10]
  have hs := @List.sorted_mergeSort Row rowGeB rowGeB_trans rowGeB_total
    (filtered_df p0 p1 b0 b1 t)
  refine ⟨List.length_take_le _ _, ?_, ?_⟩
  · exact (List.Pairwise.sublist (List.take_sublist _ _) hs).imp
      fun hab qa qb ha hb => rowGeB_price _ _ hab qa qb ha hb
  · refine ⟨(List.mergeSort (filtered_df p0 p1 b0 b1 t) rowGeB).drop 10, ?_, ?_⟩
    · have h1 := (List.mergeSort_perm (filtered_df p0 p1 b0 b1 t) rowGeB).symm
      rw [← List.take_append_drop 10
        (List.mergeSort (filtered_df p0 p1 b0 b1 t) rowGeB)] at h1
      exact h1
    · have hs2 : ((List.mergeSort (filtered_df p0 p1 b0 b1 t) rowGeB).take 10 ++
          (List.mergeSort (filtered_df p0 p1 b0 b1 t) rowGeB).drop 10).Pairwise
          (fun a b => rowGeB a b = true) := by
        rw [List.take_append_drop]
        exact hs
      intro x hx y hy qx qy hqx hqy
      exact rowGeB_price _ _ ((List.pairwise_append.mp hs2).2.2 x hx y hy)
        qx qy hqx hqy

/-- C9: when the upper end of the price selection is at most the slider
bound 500, every filtered row of `dashboard.py` has a price of at most 500,
and so does every row of the Top 10 table built from the filtered subset. -/
theorem C9_price_cap (p0 p1 b0 b1 : ℚ) (t : List Row) (hcap : p1 ≤ 500) :
    (∀ r ∈ filtered_df p0 p1 b0 b1 t, ∃ q, r.price = Cell.num q ∧ q ≤ 500) ∧
    (∀ r ∈ top10 (filtered_df p0 p1 b0 b1 t),
      ∃ q, r.price = Cell.num q ∧ q ≤ 500) := by
  have hf : ∀ r ∈ filtered_df p0 p1 b0 b1 t,
      ∃ q, r.price = Cell.num q ∧ q ≤ 500 := by
    intro r hr
    obtain ⟨-, ⟨q, hq, -, h2⟩, -⟩ := (mem_filtered_df _ _ _ _ _ _).mp hr
    exact ⟨q, hq, h2.trans hcap⟩
  refine ⟨hf, fun r hr => hf r ?_⟩
  have hmem : r ∈ List.mergeSort (filtered_df p0 p1 b0 b1 t) rowGeB :=
    (List.take_sublist 10 _).subset hr
  exact (List.mergeSort_perm (filtered_df p0 p1 b0 b1 t) rowGeB).subset hmem

/-- Witness for C9 at the default selection and a one-row table. -/
theorem C9_witness :
    (∀ r ∈ filtered_df 50 300 1 4 [rowA], ∃ q, r.price = Cell.num q ∧ q ≤ 500) ∧
    (∀ r ∈ top10 (filtered_df 50 300 1 4 [rowA]),
      ∃ q, r.price = Cell.num q ∧ q ≤ 500) :=
  C9_price_cap 50 300 1 4 [rowA] (by norm_num)

lemma corrPairs_eq_spec (l : List Row)
    (h : ∀ r ∈ l, r.number_of_reviews.toNum ≠ none ∧
      r.reviews_per_month.toNum ≠ none) :
    corrPairs l = pearsonSpecPairs l := by
  induction l with
  | nil => rfl
  | cons r l ih =>
    obtain ⟨h1, h2⟩ := h r (List.mem_cons_self r l)
    obtain ⟨x, hx⟩ := Option.ne_none_iff_exists.mp h1
    obtain ⟨y, hy⟩ := Option.ne_none_iff_exists.mp h2
    have ihx := ih fun r2 hr2 => h r2 (List.mem_cons_of_mem r hr2)
    simp only [corrPairs, pearsonSpecPairs, List.filterMap_cons,
      List.map_cons] at ihx ⊢
    rw [← hx, ← hy]
    simpa using congrArg (List.cons (x, y)) ihx

/-- C5: under every filter selection for which the Pearson coefficient of
the two review columns over the filtered subset is defined — every filtered
row carries numeric values in both columns — the displayed coefficient,
computed by pandas from the pairwise-complete observations, equals the
Pearson correlation of the two columns of the whole filtered subset (both
sides represented by their sign-carrying squares, which determine r). -/
theorem C5_pearson (p0 p1 b0 b1 : ℚ) (t : List Row)
    (h : ∀ r ∈ filtered_df p0 p1 b0 b1 t,
      r.number_of_reviews.toNum ≠ none ∧ r.reviews_per_month.toNum ≠ none) :
    corr_val (filtered_df p0 p1 b0 b1 t) =
      corrSignedSq (pearsonSpecPairs (filtered_df p0 p1 b0 b1 t)) := by
  rw [corr_val, corrPairs_eq_spec _ h]

/-- Witness for C5 at a concrete two-row table. -/
theorem C5_witness :
    corr_val (filtered_df 0 500 1 8 [rowA, rowB]) =
      corrSignedSq (pearsonSpecPairs (filtered_df 0 500 1 8 [rowA, rowB])) :=
  C5_pearson 0 500 1 8 [rowA, rowB] (by decide)

lemma isna_false_iff (c : Cell) : c.isna = false ↔ c ≠ Cell.na := by
  cases c <;> simp [Cell.isna]

lemma mem_groupKeys (col : Row → Cell) (t : List Row) (g : Cell) :
    g ∈ groupKeys col t ↔ g.isna = false ∧ ∃ r ∈ t, col r = g := by
  simp only [groupKeys, List.mem_dedup, List.mem_filter, List.mem_map,
    Bool.not_eq_true']
  constructor
  · rintro ⟨⟨r, hr, rfl⟩, hna⟩
    exact ⟨hna, r, hr, rfl⟩
  · rintro ⟨hna, r, hr, rfl⟩
    exact ⟨⟨r, hr, rfl⟩, hna⟩

lemma mem_listings_count (t : List Row) (g : Cell) (n : ℕ) :
    (g, n) ∈ listings_count t ↔
      g ∈ groupKeys (fun r => r.neighbourhood_group) t ∧
        n = ((t.filter fun r => decide (r.neighbourhood_group = g)).filter
              fun r => !r.name.isna).length := by
  simp only [listings_count, List.mem_map, Prod.mk.injEq]
  constructor
  · rintro ⟨k, hk, rfl, rfl⟩
    exact ⟨hk, rfl⟩
  · rintro ⟨hg, rfl⟩
    exact ⟨g, hg, rfl, rfl⟩

/-- C4 counterexample: with one filtered row in Brooklyn whose name cell is
missing, the by-borough table maps Brooklyn to 0 even though the filtered
subset holds one row of that group — pandas `count` counts the non-null
names, not the rows. -/
theorem C4_counterexample :
    listings_count (filtered_df 0 500 1 8 [rowNoName]) =
      [(Cell.text "Brooklyn", 0)] ∧
    ((filtered_df 0 500 1 8 [rowNoName]).filter fun r =>
        decide (r.neighbourhood_group = Cell.text "Brooklyn")).length = 1 := by
  constructor
  · rfl
  · rfl

/-- C4 (amended): for every filter selection, the Number of Listings by
Borough table has pairwise-distinct keys, its keys are exactly the
non-missing neighbourhood groups occurring in the filtered subset, and the
count attached to a group is the number of filtered rows of that group
whose name is non-missing. -/
theorem C4_listings_count (p0 p1 b0 b1 : ℚ) (t : List Row) :
    ((listings_count (filtered_df p0 p1 b0 b1 t)).map Prod.fst).Nodup ∧
    (∀ g : Cell,
      (∃ n, (g, n) ∈ listings_count (filtered_df p0 p1 b0 b1 t)) ↔
        g ≠ Cell.na ∧ ∃ r ∈ filtered_df p0 p1 b0 b1 t,
          r.neighbourhood_group = g) ∧
    ∀ g n, (g, n) ∈ listings_count (filtered_df p0 p1 b0 b1 t) →
      n = (filtered_df p0 p1 b0 b1 t).countP fun r =>
        !r.name.isna && decide (r.neighbourhood_group = g) := by
  refine ⟨?_, ?_, ?_⟩
  · have hmap : (listings_count (filtered_df p0 p1 b0 b1 t)).map Prod.fst =
        groupKeys (fun r => r.neighbourhood_group) (filtered_df p0 p1 b0 b1 t) := by
      rw [listings_count, List.map_map]
      exact List.map_id _
    rw [hmap, groupKeys]
    exact List.nodup_dedup _
  · intro g
    constructor
    · rintro ⟨n, hn⟩
      obtain ⟨hg, -⟩ := (mem_listings_count _ _ _).mp hn
      obtain ⟨hna, hr⟩ := (mem_groupKeys _ _ _).mp hg
      exact ⟨(isna_false_iff g).mp hna, hr⟩
    · rintro ⟨hna, hr⟩
      exact ⟨_, (mem_listings_count _ _ _).mpr
        ⟨(mem_groupKeys _ _ _).mpr ⟨(isna_false_iff g).mpr hna, hr⟩, rfl⟩⟩
  · intro g n hn
    obtain ⟨-, rfl⟩ := (mem_listings_count _ _ _).mp hn
    rw [List.filter_filter, List.countP_eq_length_filter]

lemma ratingGe_total (a b : Cell × ℚ) : (ratingGe a b || ratingGe b a) = true := by
  simpa [ratingGe] using le_total b.2 a.2

lemma ratingGe_trans (a b c : Cell × ℚ) (h1 : ratingGe a b = true)
    (h2 : ratingGe b c = true) : ratingGe a c = true := by
  simp only [ratingGe, decide_eq_true_iff] at h1 h2 ⊢
  exact h2.trans h1

lemma meanOpt_eq_some (xs : List ℚ) (v : ℚ) (h : meanOpt xs = some v) :
    xs ≠ [] ∧ v = xs.sum / xs.length := by
  by_cases hx : xs = []
  · rw [meanOpt, if_pos hx] at h
    exact absurd h (by simp)
  · rw [meanOpt, if_neg hx] at h
    simp only [Option.some.injEq] at h
    exact ⟨hx, h.symm⟩

lemma meanOpt_ne_none_iff (xs : List ℚ) :
    (∃ v, meanOpt xs = some v) ↔ xs ≠ [] := by
  by_cases hx : xs = [] <;> simp [meanOpt, hx]

lemma fst_filterMap_sublist (l : List (Cell × Option ℚ)) :
    ((l.filterMap fun p => p.2.map fun v => (p.1, v)).map Prod.fst).Sublist
      (l.map Prod.fst) := by
  induction l with
  | nil => exact List.Sublist.refl _
  | cons p l ih =>
    cases hp : p.2 with
    | none =>
      have hf : List.filterMap
            (fun p : Cell × Option ℚ => p.2.map fun v => (p.1, v)) (p :: l) =
          List.filterMap (fun p : Cell × Option ℚ => p.2.map fun v => (p.1, v)) l := by
        rw [List.filterMap_cons]
        simp [hp]
      rw [hf, List.map_cons]
      exact ih.cons p.1
    | some v =>
      have hf : List.filterMap
            (fun p : Cell × Option ℚ => p.2.map fun v => (p.1, v)) (p :: l) =
          (p.1, v) ::
            List.filterMap (fun p : Cell × Option ℚ => p.2.map fun v => (p.1, v)) l := by
        rw [List.filterMap_cons]
        simp [hp]
      rw [hf, List.map_cons, List.map_cons]
      exact ih.cons₂ p.1

lemma avg_rating_keys_nodup (u : List Row) :
    ((avg_rating u).map Prod.fst).Nodup := by
  simp only [avg_rating]
  refine (((List.mergeSort_perm _ ratingGe).map Prod.fst).symm).nodup ?_
  refine (fst_filterMap_sublist _).nodup ?_
  refine (((List.mergeSort_perm _ ratingOptGe).map Prod.fst).symm).nodup ?_
  rw [List.map_map]
  show ((groupKeys (fun r => r.room_type) u).map id).Nodup
  rw [List.map_id, groupKeys]
  exact List.nodup_dedup _

lemma avg_rating_sorted (u : List Row) :
    (avg_rating u).Pairwise fun a b => b.2 ≤ a.2 := by
  simp only [avg_rating]
  exact (@List.sorted_mergeSort (Cell × ℚ) ratingGe ratingGe_trans ratingGe_total
    _).imp fun hab => by simpa [ratingGe] using hab

lemma mem_avg_rating (u : List Row) (g : Cell) (v : ℚ) :
    (g, v) ∈ avg_rating u ↔
      g ∈ groupKeys (fun r => r.room_type) u ∧
        meanOpt (groupRatings u g) = some v := by
  simp only [avg_rating]
  rw [(List.mergeSort_perm _ ratingGe).mem_iff]
  simp only [List.mem_filterMap]
  constructor
  · rintro ⟨⟨pa, pb⟩, hp, hfp⟩
    have hpm := (List.mergeSort_perm _ ratingOptGe).subset hp
    rw [List.mem_map] at hpm
    obtain ⟨k, hk, hke⟩ := hpm
    simp only [Option.map_eq_some', Prod.mk.injEq] at hfp
    obtain ⟨w, hq, hg, hv⟩ := hfp
    rw [Prod.mk.injEq] at hke
    obtain ⟨hk1, hk2⟩ := hke
    subst hg
    subst hv
    subst hk1
    exact ⟨hk, hk2.trans hq⟩
  · rintro ⟨hg, hm⟩
    refine ⟨(g, some v), (List.mergeSort_perm _ ratingOptGe).mem_iff.mpr
      (List.mem_map.mpr ⟨g, hg, by rw [hm]⟩), rfl⟩

/-- C6: under any reachable selection (the room-type multiselect offers only
non-missing values, so the missing cell is never selected), the Average
Ratings by Room Type table has one row per room type occurring in the
filtered subset that has at least one numeric rating (room types with none
are removed), the value of each row is the arithmetic mean of the coerced
numeric ratings of that room type's filtered rows, and the rows are sorted
in descending order of that mean. -/
theorem C6_avg_rating (selRoom : List Cell) (p0 p1 : ℚ) (selGroup : List Cell)
    (t : List Row) (hna : Cell.na ∉ selRoom) :
    ((avg_rating (dashFilter selRoom p0 p1 selGroup t)).map Prod.fst).Nodup ∧
    (∀ g : Cell,
      (∃ v, (g, v) ∈ avg_rating (dashFilter selRoom p0 p1 selGroup t)) ↔
        (∃ r ∈ dashFilter selRoom p0 p1 selGroup t, r.room_type = g) ∧
          groupRatings (dashFilter selRoom p0 p1 selGroup t) g ≠ []) ∧
    (∀ g v, (g, v) ∈ avg_rating (dashFilter selRoom p0 p1 selGroup t) →
      v = (groupRatings (dashFilter selRoom p0 p1 selGroup t) g).sum /
        (groupRatings (dashFilter selRoom p0 p1 selGroup t) g).length) ∧
    (avg_rating (dashFilter selRoom p0 p1 selGroup t)).Pairwise
      fun a b => b.2 ≤ a.2 := by
  have hkeys : ∀ g : Cell,
      g ∈ groupKeys (fun r => r.room_type) (dashFilter selRoom p0 p1 selGroup t) ↔
        ∃ r ∈ dashFilter selRoom p0 p1 selGroup t, r.room_type = g := by
    intro g
    rw [mem_groupKeys]
    constructor
    · rintro ⟨-, hr⟩
      exact hr
    · rintro ⟨r, hr, rfl⟩
      refine ⟨?_, r, hr, rfl⟩
      have hin := ((mem_dashFilter _ _ _ _ _ _).mp hr).2.1
      rw [isna_false_iff]
      intro hna2
      rw [hna2] at hin
      exact hna hin
  refine ⟨avg_rating_keys_nodup _, ?_, ?_, avg_rating_sorted _⟩
  · intro g
    constructor
    · rintro ⟨v, hv⟩
      obtain ⟨hg, hm⟩ := (mem_avg_rating _ _ _).mp hv
      exact ⟨(hkeys g).mp hg, (meanOpt_eq_some _ _ hm).1⟩
    · rintro ⟨hg, hne⟩
      obtain ⟨v, hv⟩ := (meanOpt_ne_none_iff _).mpr hne
      exact ⟨v, (mem_avg_rating _ _ _).mpr ⟨(hkeys g).mpr hg, hv⟩⟩
  · intro g v hv
    obtain ⟨-, hm⟩ := (mem_avg_rating _ _ _).mp hv
    exact (meanOpt_eq_some _ _ hm).2

/-- Witness for C6 at a concrete selection and table. -/
theorem C6_witness :
    ((avg_rating (dashFilter [Cell.text "Entire", Cell.text "Private"] 0 500
        [Cell.text "Brooklyn"] [rowA, rowB])).map Prod.fst).Nodup ∧
    (∀ g : Cell,
      (∃ v, (g, v) ∈ avg_rating (dashFilter [Cell.text "Entire", Cell.text "Private"]
          0 500 [Cell.text "Brooklyn"] [rowA, rowB])) ↔
        (∃ r ∈ dashFilter [Cell.text "Entire", Cell.text "Private"] 0 500
            [Cell.text "Brooklyn"] [rowA, rowB], r.room_type = g) ∧
          groupRatings (dashFilter [Cell.text "Entire", Cell.text "Private"] 0 500
            [Cell.text "Brooklyn"] [rowA, rowB]) g ≠ []) ∧
    (∀ g v, (g, v) ∈ avg_rating (dashFilter [Cell.text "Entire", Cell.text "Private"]
        0 500 [Cell.text "Brooklyn"] [rowA, rowB]) →
      v = (groupRatings (dashFilter [Cell.text "Entire", Cell.text "Private"] 0 500
          [Cell.text "Brooklyn"] [rowA, rowB]) g).sum /
        (groupRatings (dashFilter [Cell.text "Entire", Cell.text "Private"] 0 500
          [Cell.text "Brooklyn"] [rowA, rowB]) g).length) ∧
    (avg_rating (dashFilter [Cell.text "Entire", Cell.text "Private"] 0 500
        [Cell.text "Brooklyn"] [rowA, rowB])).Pairwise fun a b => b.2 ≤ a.2 :=
  C6_avg_rating [Cell.text "Entire", Cell.text "Private"] 0 500
    [Cell.text "Brooklyn"] [rowA, rowB] (by decide)

end Airbnb
